import Mathlib

/-
Verification of the Expense Tracker core (Expense_Tracker.py) against its
natural-language specification.  The data model and operations below are a
shallow embedding of the Python source: monetary amounts (Python floats
holding decimal user input) are modelled as exact rationals, calendar dates
(YYYY-MM-DD strings parsed with datetime.strptime) as year/month/day triples
with the lexicographic order that datetime comparison induces, and the
budgets dict as an insertion-ordered association list, matching Python dict
semantics.
-/

set_option maxHeartbeats 1000000

namespace ExpenseTrackerModel

/-- A calendar date, as carried by the YYYY-MM-DD strings of the program
and parsed by datetime.strptime. -/
structure Date where
  year : Nat
  month : Nat
  day : Nat
deriving DecidableEq, Repr

/-- Gregorian leap-year rule, as in the datetime library. -/
def isLeap (y : Nat) : Prop := (y % 4 = 0 ∧ y % 100 ≠ 0) ∨ y % 400 = 0

instance (y : Nat) : Decidable (isLeap y) :=
  inferInstanceAs (Decidable ((y % 4 = 0 ∧ y % 100 ≠ 0) ∨ y % 400 = 0))

/-- 1 on a leap year, 0 otherwise. -/
def leapDay (y : Nat) : Nat := if isLeap y then 1 else 0

/-- Number of days of month m in year y (Gregorian calendar). -/
def daysInMonth (y m : Nat) : Nat :=
  if m = 2 then 28 + leapDay y
  else if m = 4 ∨ m = 6 ∨ m = 9 ∨ m = 11 then 30
  else 31

/-- Days of year y that fall strictly before month m (cumulative month lengths). -/
def daysBeforeMonth (y m : Nat) : Nat :=
  if m ≤ 1 then 0
  else if m = 2 then 31
  else if m = 3 then 59 + leapDay y
  else if m = 4 then 90 + leapDay y
  else if m = 5 then 120 + leapDay y
  else if m = 6 then 151 + leapDay y
  else if m = 7 then 181 + leapDay y
  else if m = 8 then 212 + leapDay y
  else if m = 9 then 243 + leapDay y
  else if m = 10 then 273 + leapDay y
  else if m = 11 then 304 + leapDay y
  else 334 + leapDay y

/-- Number of leap years in the interval [1, y-1]. -/
def leapsBefore (y : Nat) : Nat := (y - 1) / 4 - (y - 1) / 100 + (y - 1) / 400

/-- Proleptic Gregorian ordinal of a date, with 0001-01-01 mapped to 1;
this is exactly datetime.date.toordinal. -/
def Date.toOrdinal (d : Date) : Nat :=
  365 * (d.year - 1) + leapsBefore d.year + daysBeforeMonth d.year d.month + d.day

/-- A date is valid when its month and day lie in calendar range; this is what
datetime.strptime accepts for a YYYY-MM-DD string. -/
def Date.valid (d : Date) : Prop :=
  1 ≤ d.year ∧ 1 ≤ d.month ∧ d.month ≤ 12 ∧ 1 ≤ d.day ∧ d.day ≤ daysInMonth d.year d.month

instance (d : Date) : Decidable d.valid :=
  inferInstanceAs
    (Decidable (1 ≤ d.year ∧ 1 ≤ d.month ∧ d.month ≤ 12 ∧ 1 ≤ d.day ∧
      d.day ≤ daysInMonth d.year d.month))

/-- Day of the week with Monday = 0, as in datetime.date.weekday: ordinal 1
(0001-01-01) is a Monday. -/
def Date.weekday (d : Date) : Nat := (d.toOrdinal + 6) % 7

/-- The calendar day before d; used to model subtraction of a timedelta. -/
def prevDay (d : Date) : Date :=
  if 1 < d.day then { d with day := d.day - 1 }
  else if 1 < d.month then
    { year := d.year, month := d.month - 1, day := daysInMonth d.year (d.month - 1) }
  else { year := d.year - 1, month := 12, day := 31 }

/-- d minus a timedelta of n days. -/
def subDays (d : Date) : Nat → Date
  | 0 => d
  | n + 1 => prevDay (subDays d n)

/-- Comparison of dates as datetime objects: lexicographic on
(year, month, day), which is what datetime comparison computes. -/
def dateLe (a b : Date) : Bool :=
  decide (a.year < b.year) ||
    (decide (a.year = b.year) &&
      (decide (a.month < b.month) ||
        (decide (a.month = b.month) && decide (a.day ≤ b.day))))

/-- The closed set of 8 expense categories (class ExpenseCategory). -/
inductive ExpenseCategory
  | food
  | transportation
  | entertainment
  | shopping
  | bills
  | education
  | healthcare
  | other
deriving DecidableEq, Repr

/-- The string value attached to each enum member. -/
def ExpenseCategory.value : ExpenseCategory → String
  | .food => "Food"
  | .transportation => "Transportation"
  | .entertainment => "Entertainment"
  | .shopping => "Shopping"
  | .bills => "Bills"
  | .education => "Education"
  | .healthcare => "Healthcare"
  | .other => "Other"

/-- Enumeration of the categories in declaration order, as Python iterates
over the ExpenseCategory enum. -/
def ExpenseCategory.all : List ExpenseCategory :=
  [.food, .transportation, .entertainment, .shopping, .bills, .education, .healthcare, .other]

/-- Value-to-member lookup, as the ExpenseCategory(string) constructor;
none models the ValueError raised on an unknown value. -/
def ExpenseCategory.ofValue (s : String) : Option ExpenseCategory :=
  ExpenseCategory.all.find? (fun c => c.value == s)

/-- An expense record (class Expense). -/
structure Expense where
  id : String
  amount : Rat
  category : ExpenseCategory
  description : String
  date : Date
deriving DecidableEq, Repr

/-- A budget record (class Budget). -/
structure Budget where
  id : String
  category : ExpenseCategory
  amount : Rat
  period : String
deriving DecidableEq, Repr

/-- The budget key string built by the Budget constructor and by
get_budget_status and delete_budget. -/
def budgetId (c : ExpenseCategory) (period : String) : String :=
  "budget_" ++ c.value ++ "_" ++ period

/-- Zero-pad a number to two digits, as strftime does for %m and %d. -/
def pad2 (n : Nat) : String := if n < 10 then "0" ++ toString n else toString n

/-- The YYYY-MM-DD rendering of a date (strftime with %Y-%m-%d). -/
def dateStr (d : Date) : String :=
  toString d.year ++ "-" ++ pad2 d.month ++ "-" ++ pad2 d.day

/-- The expense id built by the Expense constructor: date string, underscore,
random token; the token is passed in as a parameter of the model. -/
def mkExpenseId (d : Date) (token : String) : String := dateStr d ++ "_" ++ token

/-- In-memory state of one ExpenseTracker: the ordered expense list and the
budgets dict, modelled as an insertion-ordered association list from budget
id to Budget, which is how a Python dict behaves. -/
structure TrackerState where
  expenses : List Expense
  budgets : List (String × Budget)
deriving DecidableEq, Repr

/-- First-match lookup in the budgets association list (dict indexing; keys
are unique in an actual dict, so first match is the match). -/
def lookupBudget : List (String × Budget) → String → Option Budget
  | [], _ => none
  | (k, v) :: rest, key => if k = key then some v else lookupBudget rest key

/-- Python dict assignment d[k] = v: replace in place if the key is present,
otherwise append at the end (insertion order). -/
def assocSet : List (String × Budget) → String → Budget → List (String × Budget)
  | [], k, v => [(k, v)]
  | (k1, v1) :: rest, k, v =>
    if k1 = k then (k, v) :: rest else (k1, v1) :: assocSet rest k v

/-- ExpenseTracker.add_expense.  The generated random token is a parameter;
the date is the caller-supplied date (the claims concern explicit dates). -/
def add_expense (st : TrackerState) (amount : Rat) (category : ExpenseCategory)
    (description : String) (date : Date) (token : String) :
    (Bool × String) × TrackerState :=
  if amount ≤ 0 then ((false, "Amount must be positive"), st)
  else
    let e : Expense :=
      { id := mkExpenseId date token
        amount := amount
        category := category
        description := description
        date := date }
    ((true, "Expense added successfully"), { st with expenses := st.expenses ++ [e] })

/-- ExpenseTracker.delete_expense: the list is filtered first and reassigned,
then success is decided by comparing lengths. -/
def delete_expense (st : TrackerState) (eid : String) :
    (Bool × String) × TrackerState :=
  let remaining := st.expenses.filter (fun e => !(e.id == eid))
  if remaining.length < st.expenses.length then
    ((true, "Expense deleted successfully"), { st with expenses := remaining })
  else
    ((false, "Expense not found"), { st with expenses := remaining })

/-- True when a supplied amount override is non-positive (the validation
inside update_expense). -/
def badAmount : Option Rat → Bool
  | none => false
  | some a => decide (a ≤ 0)

/-- The field-by-field overwrite performed by update_expense on the matched
expense: each supplied field replaces the old one, absent fields are kept. -/
def applyPatch (e : Expense) (a : Option Rat) (c : Option ExpenseCategory)
    (ds : Option String) (dt : Option Date) : Expense :=
  { e with
    amount := a.getD e.amount
    category := c.getD e.category
    description := ds.getD e.description
    date := dt.getD e.date }

/-- The loop of ExpenseTracker.update_expense over the expense list: find the
first expense with the given id, validate a supplied amount, then overwrite
the supplied fields in place. -/
def updateGo (eid : String) (a : Option Rat) (c : Option ExpenseCategory)
    (ds : Option String) (dt : Option Date) :
    List Expense → (Bool × String) × List Expense
  | [] => ((false, "Expense not found"), [])
  | e :: rest =>
    if e.id = eid then
      if badAmount a then ((false, "Amount must be positive"), e :: rest)
      else ((true, "Expense updated successfully"), applyPatch e a c ds dt :: rest)
    else
      let r := updateGo eid a c ds dt rest
      (r.1, e :: r.2)

/-- ExpenseTracker.update_expense. -/
def update_expense (st : TrackerState) (eid : String) (a : Option Rat)
    (c : Option ExpenseCategory) (ds : Option String) (dt : Option Date) :
    (Bool × String) × TrackerState :=
  let r := updateGo eid a c ds dt st.expenses
  (r.1, { st with expenses := r.2 })

/-- ExpenseTracker.get_expense: first match by id. -/
def get_expense (st : TrackerState) (eid : String) : Option Expense :=
  st.expenses.find? (fun e => e.id == eid)

/-- ExpenseTracker.get_expenses_by_date_range with inclusive bounds. -/
def get_expenses_by_date_range (st : TrackerState) (s e : Date) : List Expense :=
  st.expenses.filter (fun x => dateLe s x.date && dateLe x.date e)

/-- ExpenseTracker.get_total_spent: start from all expenses, narrow by the
category if supplied, then narrow the already-selected expenses by the date
range if both bounds are supplied, and sum the amounts. -/
def get_total_spent (st : TrackerState) (category : Option ExpenseCategory)
    (sd ed : Option Date) : Rat :=
  let exps : List Expense :=
    match category with
    | some c => st.expenses.filter (fun e => decide (e.category = c))
    | none => st.expenses
  let exps2 : List Expense :=
    match sd, ed with
    | some s, some e => exps.filter (fun x => dateLe s x.date && dateLe x.date e)
    | _, _ => exps
  (exps2.map (fun x => x.amount)).sum

/-- The per-category totals dict of get_total_spent_by_category starts with
every category present at zero, in enum order. -/
def startTotals : List (String × Rat) :=
  ExpenseCategory.all.map (fun c => (c.value, 0))

/-- One accumulation step category_totals[key] += amount on the totals dict. -/
def bumpKey (k : String) (amt : Rat) (l : List (String × Rat)) : List (String × Rat) :=
  l.map (fun p => if p.1 = k then (p.1, p.2 + amt) else p)

/-- ExpenseTracker.get_total_spent_by_category. -/
def get_total_spent_by_category (st : TrackerState) (sd ed : Option Date) :
    List (String × Rat) :=
  let exps : List Expense :=
    match sd, ed with
    | some s, some e => get_expenses_by_date_range st s e
    | _, _ => st.expenses
  exps.foldl (fun acc x => bumpKey x.category.value x.amount acc) startTotals

/-- ExpenseTracker.set_budget: reject a negative amount, otherwise build the
Budget (with its id derived from category and period) and store it under
that id, overwriting any existing entry.  No validation of the period string
happens here. -/
def set_budget (st : TrackerState) (category : ExpenseCategory) (amount : Rat)
    (period : String) : (Bool × String) × TrackerState :=
  if amount < 0 then ((false, "Budget amount cannot be negative"), st)
  else
    let b : Budget :=
      { id := budgetId category period
        category := category
        amount := amount
        period := period }
    ((true, "Budget set"), { st with budgets := assocSet st.budgets b.id b })

/-- The period window of get_total_spent_by_period, relative to now: daily is
today alone, weekly starts now minus now.weekday() days, and every other
period (the else branch, normally monthly) starts at the first day of the
current month. -/
def periodWindow (now : Date) (period : String) : Date × Date :=
  if period = "daily" then (now, now)
  else if period = "weekly" then (subDays now now.weekday, now)
  else ({ year := now.year, month := now.month, day := 1 }, now)

/-- ExpenseTracker.get_total_spent_by_period: total for the one category over
the current period window, via get_total_spent. -/
def get_total_spent_by_period (st : TrackerState) (c : ExpenseCategory)
    (period : String) (now : Date) : Rat :=
  get_total_spent st (some c) (some (periodWindow now period).1)
    (some (periodWindow now period).2)

/-- Round-half-to-even to an integer, as the Python round builtin. -/
def roundHalfEven (q : Rat) : Int :=
  if q - ⌊q⌋ < 1 / 2 then ⌊q⌋
  else if 1 / 2 < q - ⌊q⌋ then ⌊q⌋ + 1
  else if ⌊q⌋ % 2 = 0 then ⌊q⌋ else ⌊q⌋ + 1

/-- round(x, 2) of the Python source, over exact rationals. -/
def round2 (q : Rat) : Rat := (roundHalfEven (q * 100) : Rat) / 100

/-- The dict returned by get_budget_status when a budget exists. -/
structure BudgetStatus where
  has_budget : Bool
  budget_amount : Rat
  spent : Rat
  remaining : Rat
  percentage_used : Rat
  is_over_budget : Bool
  period : String
deriving DecidableEq, Repr

/-- ExpenseTracker.get_budget_status; none models the has_budget = False
dict returned when no budget is stored under the (category, period) key. -/
def get_budget_status (st : TrackerState) (now : Date) (c : ExpenseCategory)
    (period : String) : Option BudgetStatus :=
  match lookupBudget st.budgets (budgetId c period) with
  | none => none
  | some budget =>
    let spent := get_total_spent_by_period st c period now
    let remaining := budget.amount - spent
    let pct := if 0 < budget.amount then spent / budget.amount * 100 else 0
    some
      { has_budget := true
        budget_amount := budget.amount
        spent := spent
        remaining := remaining
        percentage_used := round2 pct
        is_over_budget := decide (budget.amount < spent)
        period := period }

/-- One entry of the categories mapping built by get_spending_summary. -/
structure CategorySummary where
  spent : Rat
  budget_status : Option BudgetStatus
  percentage_of_total : Rat
deriving DecidableEq, Repr

/-- First-match value lookup in the per-category totals list. -/
def lookupTotal (l : List (String × Rat)) (k : String) : Rat :=
  match l.find? (fun p => p.1 == k) with
  | some p => p.2
  | none => 0

/-- The budget chosen by get_spending_summary for one category: among the
stored budgets of that category (dict value order), the first monthly one if
any exists, otherwise the first one found. -/
def preferredBudget (budgets : List (String × Budget)) (c : ExpenseCategory) :
    Option Budget :=
  match (budgets.map Prod.snd).filter (fun b => decide (b.category = c)) with
  | [] => none
  | b :: rest => some ((((b :: rest).find? (fun x => x.period == "monthly"))).getD b)

/-- The per-category record built in the loop of get_spending_summary. -/
def summaryEntry (st : TrackerState) (now : Date) (totals : List (String × Rat))
    (total : Rat) (c : ExpenseCategory) : CategorySummary :=
  { spent := lookupTotal totals c.value
    budget_status :=
      match preferredBudget st.budgets c with
      | none => none
      | some b => get_budget_status st now c b.period
    percentage_of_total :=
      if 0 < total then lookupTotal totals c.value / total * 100 else 0 }

/-- ExpenseTracker.get_spending_summary with explicit bounds: the grand total
and the categories mapping keyed by category value. -/
def get_spending_summary (st : TrackerState) (now : Date) (sd ed : Date) :
    Rat × List (String × CategorySummary) :=
  let totals := get_total_spent_by_category st (some sd) (some ed)
  let total := (totals.map Prod.snd).sum
  (total, ExpenseCategory.all.map (fun c => (c.value, summaryEntry st now totals total c)))

/-- Serialized form of one expense (Expense.to_dict). -/
structure ExpenseDict where
  id : String
  amount : Rat
  category : String
  description : String
  date : Date
deriving DecidableEq, Repr

/-- Expense.to_dict. -/
def Expense.to_dict (e : Expense) : ExpenseDict :=
  { id := e.id
    amount := e.amount
    category := e.category.value
    description := e.description
    date := e.date }

/-- Expense.from_dict: the category string is resolved through the enum
constructor, and the stored id overwrites the freshly generated one. -/
def Expense.from_dict (d : ExpenseDict) : Option Expense :=
  match ExpenseCategory.ofValue d.category with
  | none => none
  | some c =>
    some
      { id := d.id
        amount := d.amount
        category := c
        description := d.description
        date := d.date }

/-- Serialized form of one budget (Budget.to_dict). -/
structure BudgetDict where
  id : String
  category : String
  amount : Rat
  period : String
deriving DecidableEq, Repr

/-- Budget.to_dict. -/
def Budget.to_dict (b : Budget) : BudgetDict :=
  { id := b.id, category := b.category.value, amount := b.amount, period := b.period }

/-- Budget.from_dict: rebuilds through the constructor, so the id is
recomputed from the category and period. -/
def Budget.from_dict (d : BudgetDict) : Option Budget :=
  match ExpenseCategory.ofValue d.category with
  | none => none
  | some c =>
    some
      { id := budgetId c d.period
        category := c
        amount := d.amount
        period := d.period }

/-- The payload written by save_data (username and timestamp omitted: they do
not take part in the reload of expenses and budgets). -/
structure SavedData where
  expenses : List ExpenseDict
  budgets : List BudgetDict
deriving DecidableEq, Repr

/-- ExpenseTracker.save_data. -/
def save_data (st : TrackerState) : SavedData :=
  { expenses := st.expenses.map Expense.to_dict
    budgets := (st.budgets.map Prod.snd).map Budget.to_dict }

/-- ExpenseTracker.load_data on an already-parsed payload: expenses through
Expense.from_dict, budgets as a dict keyed by the serialized id with
Budget.from_dict values. -/
def load_data (sd : SavedData) : Option TrackerState :=
  match sd.expenses.mapM Expense.from_dict,
    sd.budgets.mapM (fun d => Option.map (fun b => (d.id, b)) (Budget.from_dict d)) with
  | some es, some bs => some { expenses := es, budgets := bs }
  | _, _ => none

/-- Insertion step of a simple stable sort on expenses. -/
def insertLe (le : Expense → Expense → Bool) (x : Expense) :
    List Expense → List Expense
  | [] => [x]
  | y :: ys => if le x y then x :: y :: ys else y :: insertLe le x ys

/-- Insertion sort on expenses by a boolean comparator (list.sort). -/
def sortWith (le : Expense → Expense → Bool) (l : List Expense) : List Expense :=
  l.foldr (insertLe le) []

/-- Comparator on the date key. -/
def dateLeE (a b : Expense) : Bool := dateLe a.date b.date

/-- Comparator on the amount key. -/
def amountLeE (a b : Expense) : Bool := decide (a.amount ≤ b.amount)

/-- Comparator on the category value key (string order). -/
def categoryLeE (a b : Expense) : Bool :=
  (compare a.category.value b.category.value).isLE

/-- The reverse flag of list.sort: with reverse set, the comparison is
turned around. -/
def withRev (rev : Bool) (le : Expense → Expense → Bool) :
    Expense → Expense → Bool :=
  fun a b => if rev then le b a else le a b

/-- ExpenseTracker.get_all_expenses: sort a copy of the expense list by the
chosen key; an unknown sort key leaves the copy in its stored order.  The
second component is the tracker state after the call, which the method does
not touch. -/
def get_all_expenses (st : TrackerState) (sort_by : String) (rev : Bool) :
    List Expense × TrackerState :=
  let copied := st.expenses
  let sorted :=
    if sort_by = "date" then sortWith (withRev rev dateLeE) copied
    else if sort_by = "amount" then sortWith (withRev rev amountLeE) copied
    else if sort_by = "category" then sortWith (withRev rev categoryLeE) copied
    else copied
  (sorted, st)

/-! Helper lemmas shared by several claims. -/

theorem filter_filter_and {α : Type} (p q : α → Bool) (l : List α) :
    (l.filter p).filter q = l.filter (fun x => p x && q x) := by
  induction l with
  | nil => rfl
  | cons x xs ih =>
    by_cases hp : p x
    · by_cases hq : q x <;> simp [List.filter_cons, hp, hq, ih]
    · simp [List.filter_cons, hp, ih]

theorem sum_amount_filter_le (p : Expense → Bool) (l : List Expense)
    (h : ∀ x ∈ l, 0 ≤ x.amount) :
    ((l.filter p).map (fun x => x.amount)).sum ≤ (l.map (fun x => x.amount)).sum := by
  induction l with
  | nil => simp
  | cons x xs ih =>
    have hx : 0 ≤ x.amount := h x (List.mem_cons_self x xs)
    have hxs : ∀ y ∈ xs, 0 ≤ y.amount := fun y hy => h y (List.mem_cons_of_mem x hy)
    by_cases hp : p x
    · simpa [List.filter_cons, hp] using ih hxs
    · simp only [List.filter_cons, hp, if_neg, Bool.false_eq_true, List.map_cons, List.sum_cons]
      calc ((xs.filter p).map (fun x => x.amount)).sum ≤ (xs.map (fun x => x.amount)).sum :=
            ih hxs
        _ ≤ x.amount + (xs.map (fun x => x.amount)).sum := by linarith

/-- C1: for every ledger with nonnegative amounts (the stored-amount
invariant), the category filter and the date filter of get_total_spent are
applied as a conjunction over the same base set, and the
category-and-date-filtered total never exceeds the date-only total. -/
theorem C1_total_spent_conjunctive (st : TrackerState) (C : ExpenseCategory) (S E : Date)
    (hpos : ∀ x ∈ st.expenses, 0 ≤ x.amount) :
    get_total_spent st (some C) (some S) (some E)
      = ((st.expenses.filter
            (fun x => decide (x.category = C) && (dateLe S x.date && dateLe x.date E))).map
          (fun x => x.amount)).sum
    ∧ get_total_spent st (some C) (some S) (some E)
        ≤ get_total_spent st none (some S) (some E) := by
  have hmerge :
      (st.expenses.filter (fun e => decide (e.category = C))).filter
          (fun x => dateLe S x.date && dateLe x.date E)
        = st.expenses.filter
            (fun x => decide (x.category = C) && (dateLe S x.date && dateLe x.date E)) :=
    filter_filter_and _ _ _
  constructor
  · simp only [get_total_spent]
    rw [hmerge]
  · simp only [get_total_spent]
    rw [hmerge]
    have hswap :
        st.expenses.filter
            (fun x => decide (x.category = C) && (dateLe S x.date && dateLe x.date E))
          = (st.expenses.filter (fun x => dateLe S x.date && dateLe x.date E)).filter
              (fun x => decide (x.category = C)) := by
      rw [filter_filter_and]
      congr 1
      funext x
      exact Bool.and_comm _ _
    rw [hswap]
    exact sum_amount_filter_le _ _
      (fun x hx => hpos x (List.mem_of_mem_filter hx))

/-- Witness for C1 at a concrete two-expense ledger. -/
theorem C1_total_spent_conjunctive_witness :
    (∀ x ∈ (TrackerState.mk
        [{ id := "a", amount := 5, category := .food, description := "d1",
           date := ⟨2024, 1, 10⟩ },
         { id := "b", amount := 3, category := .bills, description := "d2",
           date := ⟨2024, 2, 10⟩ }] []).expenses, 0 ≤ x.amount)
    ∧ (get_total_spent (TrackerState.mk
        [{ id := "a", amount := 5, category := .food, description := "d1",
           date := ⟨2024, 1, 10⟩ },
         { id := "b", amount := 3, category := .bills, description := "d2",
           date := ⟨2024, 2, 10⟩ }] []) (some .food) (some ⟨2024, 1, 1⟩) (some ⟨2024, 12, 31⟩)
        ≤ get_total_spent (TrackerState.mk
        [{ id := "a", amount := 5, category := .food, description := "d1",
           date := ⟨2024, 1, 10⟩ },
         { id := "b", amount := 3, category := .bills, description := "d2",
           date := ⟨2024, 2, 10⟩ }] []) none (some ⟨2024, 1, 1⟩) (some ⟨2024, 12, 31⟩)) :=
  ⟨by decide,
    (C1_total_spent_conjunctive _ .food ⟨2024, 1, 1⟩ ⟨2024, 12, 31⟩ (by decide)).2⟩

/-- Sample data used by several witnesses. -/
def sampleExpense : Expense :=
  { id := "2024-01-15_tok"
    amount := 50
    category := .food
    description := "groceries"
    date := ⟨2024, 1, 15⟩ }

/-- Sample budget used by several witnesses. -/
def sampleBudget : Budget :=
  { id := budgetId .food "monthly"
    category := .food
    amount := 100
    period := "monthly" }

/-- Sample tracker state used by several witnesses. -/
def sampleState : TrackerState :=
  { expenses := [sampleExpense]
    budgets := [(budgetId .food "monthly", sampleBudget)] }

/-- C2: for every stored budget with amount B and period spending s,
get_budget_status reports remaining = B - s exactly, is_over_budget true
exactly when s > B, and percentage_used = round2 of s divided by B times 100
when B > 0 and 0 when B = 0. -/
theorem C2_budget_status_fields (st : TrackerState) (now : Date) (c : ExpenseCategory)
    (period : String) (b : Budget)
    (hb : lookupBudget st.budgets (budgetId c period) = some b) :
    ∃ status, get_budget_status st now c period = some status
      ∧ status.spent = get_total_spent_by_period st c period now
      ∧ status.budget_amount = b.amount
      ∧ status.remaining = b.amount - status.spent
      ∧ (status.is_over_budget = true ↔ b.amount < status.spent)
      ∧ (0 < b.amount → status.percentage_used
            = round2 (status.spent / b.amount * 100))
      ∧ (b.amount = 0 → status.percentage_used = 0) := by
  simp only [get_budget_status, hb]
  refine ⟨_, rfl, rfl, rfl, rfl, ?_, ?_, ?_⟩
  · exact decide_eq_true_iff
  · intro h
    rw [if_pos h]
  · intro h
    rw [h]
    norm_num [round2, roundHalfEven]

/-- Witness for C2 at a 100-budget, 50-spent concrete state. -/
theorem C2_budget_status_fields_witness :
    lookupBudget sampleState.budgets (budgetId .food "monthly") = some sampleBudget
    ∧ (∃ status, get_budget_status sampleState ⟨2024, 1, 20⟩ .food "monthly" = some status
      ∧ status.spent = get_total_spent_by_period sampleState .food "monthly" ⟨2024, 1, 20⟩
      ∧ status.budget_amount = sampleBudget.amount
      ∧ status.remaining = sampleBudget.amount - status.spent
      ∧ (status.is_over_budget = true ↔ sampleBudget.amount < status.spent)
      ∧ (0 < sampleBudget.amount → status.percentage_used
            = round2 (status.spent / sampleBudget.amount * 100))
      ∧ (sampleBudget.amount = 0 → status.percentage_used = 0)) :=
  ⟨by decide, C2_budget_status_fields sampleState ⟨2024, 1, 20⟩ .food "monthly"
    sampleBudget (by decide)⟩

/-! Calendar lemmas for the period window claim. -/

theorem daysInMonth_pos (y m : Nat) : 1 ≤ daysInMonth y m := by
  unfold daysInMonth leapDay
  split_ifs <;> omega

theorem leapsBefore_succ (y : Nat) (hy : 2 ≤ y) :
    leapsBefore y = leapsBefore (y - 1) + leapDay (y - 1) := by
  unfold leapsBefore leapDay
  split_ifs with h
  · unfold isLeap at h
    omega
  · unfold isLeap at h
    omega

theorem dbm_succ (y m : Nat) (h1 : 2 ≤ m) (h2 : m ≤ 12) :
    daysBeforeMonth y m = daysBeforeMonth y (m - 1) + daysInMonth y (m - 1) := by
  interval_cases m <;> norm_num [daysBeforeMonth, daysInMonth] <;> omega

theorem toOrdinal_ge_366 (d : Date) (hv : d.valid) (hy : 2 ≤ d.year) :
    366 ≤ d.toOrdinal := by
  obtain ⟨h1, h2, h3, h4, h5⟩ := hv
  unfold Date.toOrdinal
  have h6 : 365 ≤ 365 * (d.year - 1) := by
    have h7 : 1 ≤ d.year - 1 := by omega
    calc 365 = 365 * 1 := by omega
      _ ≤ 365 * (d.year - 1) := Nat.mul_le_mul_left 365 h7
  omega

theorem prevDay_spec (d : Date) (hv : d.valid) (h2 : 2 ≤ d.toOrdinal) :
    (prevDay d).valid ∧ (prevDay d).toOrdinal + 1 = d.toOrdinal := by
  obtain ⟨hy, hm1, hm2, hd1, hd2⟩ := hv
  unfold prevDay
  by_cases hd : 1 < d.day
  · rw [if_pos hd]
    constructor
    · exact ⟨hy, hm1, hm2, by show 1 ≤ d.day - 1; omega,
        by show d.day - 1 ≤ daysInMonth d.year d.month; omega⟩
    · show 365 * (d.year - 1) + leapsBefore d.year + daysBeforeMonth d.year d.month
          + (d.day - 1) + 1
        = 365 * (d.year - 1) + leapsBefore d.year + daysBeforeMonth d.year d.month + d.day
      omega
  · by_cases hm : 1 < d.month
    · rw [if_neg hd, if_pos hm]
      have hday : d.day = 1 := by omega
      have hdbm := dbm_succ d.year d.month (by omega) hm2
      constructor
      · exact ⟨hy, by show 1 ≤ d.month - 1; omega, by show d.month - 1 ≤ 12; omega,
          daysInMonth_pos _ _, le_refl _⟩
      · show 365 * (d.year - 1) + leapsBefore d.year + daysBeforeMonth d.year (d.month - 1)
            + daysInMonth d.year (d.month - 1) + 1
          = 365 * (d.year - 1) + leapsBefore d.year + daysBeforeMonth d.year d.month + d.day
        omega
    · rw [if_neg hd, if_neg hm]
      have hday : d.day = 1 := by omega
      have hmon : d.month = 1 := by omega
      have hdbm1 : daysBeforeMonth d.year d.month = 0 := by
        rw [hmon]
        norm_num [daysBeforeMonth]
      have hy2 : 2 ≤ d.year := by
        by_contra hcon
        have hy1 : d.year = 1 := by omega
        have hone : d.toOrdinal = 1 := by
          show 365 * (d.year - 1) + leapsBefore d.year + daysBeforeMonth d.year d.month
              + d.day = 1
          rw [hdbm1, hday, hy1]
          norm_num [leapsBefore]
        omega
      have hdbm12 : daysBeforeMonth (d.year - 1) 12 = 334 + leapDay (d.year - 1) := by
        norm_num [daysBeforeMonth]
      have hlp := leapsBefore_succ d.year hy2
      constructor
      · refine ⟨by show 1 ≤ d.year - 1; omega, by norm_num, by norm_num, by norm_num, ?_⟩
        show (31 : Nat) ≤ daysInMonth (d.year - 1) 12
        norm_num [daysInMonth]
      · show 365 * (d.year - 1 - 1) + leapsBefore (d.year - 1)
            + daysBeforeMonth (d.year - 1) 12 + 31 + 1
          = 365 * (d.year - 1) + leapsBefore d.year + daysBeforeMonth d.year d.month + d.day
        rw [hdbm12, hdbm1, hday, hlp]
        omega

theorem subDays_spec (d : Date) (n : Nat) (hv : d.valid) (h : n + 1 ≤ d.toOrdinal) :
    (subDays d n).valid ∧ (subDays d n).toOrdinal + n = d.toOrdinal := by
  induction n with
  | zero => exact ⟨hv, rfl⟩
  | succ k ih =>
    obtain ⟨ihv, iho⟩ := ih (by omega)
    have hk2 : 2 ≤ (subDays d k).toOrdinal := by omega
    obtain ⟨pv, po⟩ := prevDay_spec (subDays d k) ihv hk2
    exact ⟨pv, by simp only [subDays]; omega⟩

/-- C3: relative to any current date (of year at least 2), the spending
window used when evaluating a budget resolves to today alone for period
daily, to the most recent Monday on or before today through today for period
weekly (weekday 0 encodes Monday, as in datetime), and to the first day of
the current month through today for period monthly; in each case the window
is fed to get_total_spent, whose date bounds are inclusive on both sides. -/
theorem C3_period_window (now : Date) (hv : now.valid) (hy : 2 ≤ now.year) :
    periodWindow now "daily" = (now, now)
    ∧ (periodWindow now "monthly").1
        = { year := now.year, month := now.month, day := 1 }
    ∧ (periodWindow now "monthly").2 = now
    ∧ ((periodWindow now "monthly").1).valid
    ∧ dateLe (periodWindow now "monthly").1 now = true
    ∧ (periodWindow now "weekly").2 = now
    ∧ ((periodWindow now "weekly").1).valid
    ∧ (periodWindow now "weekly").1.toOrdinal + now.weekday = now.toOrdinal
    ∧ (periodWindow now "weekly").1.weekday = 0
    ∧ (∀ m : Date, m.weekday = 0 → m.toOrdinal ≤ now.toOrdinal →
        m.toOrdinal ≤ (periodWindow now "weekly").1.toOrdinal)
    ∧ (∀ st c p, get_total_spent_by_period st c p now
        = ((st.expenses.filter (fun x => decide (x.category = c)
              && (dateLe (periodWindow now p).1 x.date
                  && dateLe x.date (periodWindow now p).2))).map
            (fun x => x.amount)).sum) := by
  obtain ⟨hv1, hv2, hv3, hv4, hv5⟩ := hv
  have hdaily : periodWindow now "daily" = (now, now) := by
    unfold periodWindow
    rw [if_pos rfl]
  have hmonthly : periodWindow now "monthly"
      = ({ year := now.year, month := now.month, day := 1 }, now) := by
    unfold periodWindow
    rw [if_neg (by decide), if_neg (by decide)]
  have hweekly : periodWindow now "weekly" = (subDays now now.weekday, now) := by
    unfold periodWindow
    rw [if_neg (by decide), if_pos rfl]
  have hwd : now.weekday + 1 ≤ now.toOrdinal := by
    have h366 := toOrdinal_ge_366 now ⟨hv1, hv2, hv3, hv4, hv5⟩ hy
    have hlt : now.weekday < 7 := Nat.mod_lt _ (by omega)
    omega
  obtain ⟨hsv, hso⟩ := subDays_spec now now.weekday ⟨hv1, hv2, hv3, hv4, hv5⟩ hwd
  refine ⟨hdaily, ?_, ?_, ?_, ?_, ?_, ?_, ?_, ?_, ?_, ?_⟩
  · rw [hmonthly]
  · rw [hmonthly]
  · rw [hmonthly]
    exact ⟨hv1, hv2, hv3, le_refl _, daysInMonth_pos _ _⟩
  · rw [hmonthly]
    have hdec : decide (1 ≤ now.day) = true := decide_eq_true hv4
    simp [dateLe, hdec]
  · rw [hweekly]
  · rw [hweekly]
    exact hsv
  · rw [hweekly]
    exact hso
  · rw [hweekly]
    simp only [Date.weekday] at hso ⊢
    omega
  · intro m hm0 hmle
    rw [hweekly]
    simp only [Date.weekday] at hm0 hso ⊢
    omega
  · intro st c p
    simp only [get_total_spent_by_period, get_total_spent]
    rw [filter_filter_and]

/-- Witness for C3 at the concrete date 2026-10-09. -/
theorem C3_period_window_witness :
    (⟨2026, 10, 9⟩ : Date).valid ∧ 2 ≤ (⟨2026, 10, 9⟩ : Date).year
    ∧ (periodWindow ⟨2026, 10, 9⟩ "daily" = (⟨2026, 10, 9⟩, ⟨2026, 10, 9⟩)
      ∧ (periodWindow ⟨2026, 10, 9⟩ "weekly").1.weekday = 0) :=
  ⟨by decide, by decide,
    (C3_period_window ⟨2026, 10, 9⟩ (by decide) (by decide)).1,
    (C3_period_window ⟨2026, 10, 9⟩ (by decide) (by decide)).2.2.2.2.2.2.2.2.1⟩

/-- C4: in the spending summary, the per-category budget status is computed
from a monthly budget of that category when one exists among the stored
budgets, and otherwise from the first stored budget of that category; the
choice is a function of the stored budget order.  The first conjunct pins
the summary mapping entry for the category; the rest characterize the
chosen period. -/
theorem C4_summary_prefers_monthly (st : TrackerState) (now : Date) (sd ed : Date)
    (c : ExpenseCategory) :
    ((get_spending_summary st now sd ed).2).lookup c.value
      = some (summaryEntry st now
          (get_total_spent_by_category st (some sd) (some ed))
          (((get_total_spent_by_category st (some sd) (some ed)).map Prod.snd).sum) c)
    ∧ ((st.budgets.map Prod.snd).filter (fun b => decide (b.category = c)) = [] →
        (summaryEntry st now
          (get_total_spent_by_category st (some sd) (some ed))
          (((get_total_spent_by_category st (some sd) (some ed)).map Prod.snd).sum)
            c).budget_status = none)
    ∧ ((∃ b ∈ (st.budgets.map Prod.snd).filter (fun b => decide (b.category = c)),
          b.period = "monthly") →
        (summaryEntry st now
          (get_total_spent_by_category st (some sd) (some ed))
          (((get_total_spent_by_category st (some sd) (some ed)).map Prod.snd).sum)
            c).budget_status = get_budget_status st now c "monthly")
    ∧ (∀ b rest,
        (st.budgets.map Prod.snd).filter (fun b => decide (b.category = c)) = b :: rest →
        (∀ x ∈ (st.budgets.map Prod.snd).filter (fun b => decide (b.category = c)),
          x.period ≠ "monthly") →
        (summaryEntry st now
          (get_total_spent_by_category st (some sd) (some ed))
          (((get_total_spent_by_category st (some sd) (some ed)).map Prod.snd).sum)
            c).budget_status = get_budget_status st now c b.period) := by
  refine ⟨?_, ?_, ?_, ?_⟩
  · cases c <;> rfl
  · intro hnil
    simp only [summaryEntry, preferredBudget, hnil]
  · rintro ⟨b, hbmem, hbp⟩
    cases hMc : (st.budgets.map Prod.snd).filter (fun b => decide (b.category = c)) with
    | nil =>
      rw [hMc] at hbmem
      cases hbmem
    | cons b0 rest =>
      rw [hMc] at hbmem
      have hfs : (((b0 :: rest).find? (fun x => x.period == "monthly"))).isSome :=
        List.find?_isSome.mpr ⟨b, hbmem, by simp [hbp]⟩
      obtain ⟨x, hx⟩ := Option.isSome_iff_exists.mp hfs
      have hxp : x.period = "monthly" := by
        have hpx := List.find?_some hx
        simpa using hpx
      simp only [summaryEntry, preferredBudget, hMc, hx, Option.getD_some, hxp]
  · intro b rest hMc hnone
    have hfn : ((b :: rest).find? (fun x => x.period == "monthly")) = none := by
      rw [List.find?_eq_none]
      intro x hxmem
      rw [hMc] at hnone
      simpa using hnone x hxmem
    simp only [summaryEntry, preferredBudget, hMc, hfn, Option.getD_none]

/-- Witness for C4 at a state holding one monthly Food budget. -/
theorem C4_summary_prefers_monthly_witness :
    (∃ b ∈ (sampleState.budgets.map Prod.snd).filter
        (fun b => decide (b.category = ExpenseCategory.food)), b.period = "monthly")
    ∧ (summaryEntry sampleState ⟨2024, 1, 20⟩
        (get_total_spent_by_category sampleState (some ⟨2024, 1, 1⟩) (some ⟨2024, 1, 20⟩))
        (((get_total_spent_by_category sampleState
            (some ⟨2024, 1, 1⟩) (some ⟨2024, 1, 20⟩)).map Prod.snd).sum)
          ExpenseCategory.food).budget_status
        = get_budget_status sampleState ⟨2024, 1, 20⟩ ExpenseCategory.food "monthly" :=
  ⟨⟨sampleBudget, by decide, rfl⟩,
    (C4_summary_prefers_monthly sampleState ⟨2024, 1, 20⟩ ⟨2024, 1, 1⟩ ⟨2024, 1, 20⟩
        ExpenseCategory.food).2.2.1 ⟨sampleBudget, by decide, rfl⟩⟩

/-! Lemmas for the per-category totals claim. -/

theorem bumpKey_fst (k : String) (a : Rat) (l : List (String × Rat)) :
    (bumpKey k a l).map Prod.fst = l.map Prod.fst := by
  simp only [bumpKey, List.map_map]
  congr 1
  funext p
  by_cases h : p.1 = k <;> simp [h]

theorem bumpKey_id (k : String) (a : Rat) (l : List (String × Rat))
    (h : ∀ p ∈ l, p.1 ≠ k) : bumpKey k a l = l := by
  induction l with
  | nil => rfl
  | cons p ps ih =>
    have hp := h p (List.mem_cons_self p ps)
    have h2 := ih (fun q hq => h q (List.mem_cons_of_mem p hq))
    simp only [bumpKey, List.map_cons, if_neg hp] at h2 ⊢
    rw [h2]

theorem bumpKey_sum (k : String) (a : Rat) (l : List (String × Rat))
    (h : (l.map Prod.fst).count k = 1) :
    ((bumpKey k a l).map Prod.snd).sum = (l.map Prod.snd).sum + a := by
  induction l with
  | nil => simp at h
  | cons p ps ih =>
    by_cases hp : p.1 = k
    · have hcount : ((ps.map Prod.fst).count k) = 0 := by
        simp [List.count_cons, hp] at h
        omega
      have hnot : ∀ q ∈ ps, q.1 ≠ k := by
        intro q hq hqk
        have hkmem : k ∈ ps.map Prod.fst := List.mem_map.mpr ⟨q, hq, hqk⟩
        rw [← List.count_pos_iff] at hkmem
        omega
      have hid := bumpKey_id k a ps hnot
      simp only [bumpKey, List.map_cons, if_pos hp] at hid ⊢
      rw [hid]
      simp only [List.sum_cons]
      ring
    · have hcount : ((ps.map Prod.fst).count k) = 1 := by
        have hp2 : k ≠ p.1 := fun hc => hp hc.symm
        simp [List.count_cons, hp, hp2] at h
        omega
      have ihs := ih hcount
      simp only [bumpKey, List.map_cons, if_neg hp] at ihs ⊢
      rw [List.sum_cons, List.sum_cons, ihs]
      ring

theorem count_startTotals (c : ExpenseCategory) :
    (startTotals.map Prod.fst).count c.value = 1 := by
  cases c <;> decide

theorem fold_totals (l : List Expense) :
    ∀ acc : List (String × Rat), acc.map Prod.fst = startTotals.map Prod.fst →
    ((l.foldl (fun acc x => bumpKey x.category.value x.amount acc) acc).map Prod.fst
        = startTotals.map Prod.fst
      ∧ ((l.foldl (fun acc x => bumpKey x.category.value x.amount acc) acc).map
          Prod.snd).sum
        = (acc.map Prod.snd).sum + (l.map (fun x => x.amount)).sum) := by
  induction l with
  | nil =>
    intro acc h
    exact ⟨h, by simp⟩
  | cons x xs ih =>
    intro acc h
    have hkeys : (bumpKey x.category.value x.amount acc).map Prod.fst
        = startTotals.map Prod.fst := by
      rw [bumpKey_fst]
      exact h
    have hcount : (acc.map Prod.fst).count x.category.value = 1 := by
      rw [h]
      exact count_startTotals _
    obtain ⟨ihk, ihs⟩ := ih (bumpKey x.category.value x.amount acc) hkeys
    refine ⟨by simpa only [List.foldl_cons] using ihk, ?_⟩
    simp only [List.foldl_cons]
    rw [ihs, bumpKey_sum _ _ _ hcount]
    simp only [List.map_cons, List.sum_cons]
    ring

/-- C5: with no date bounds, the per-category totals mapping has exactly the
8 fixed category names as keys, every category present, and its values sum
to the unfiltered total of the ledger. -/
theorem C5_totals_by_category (st : TrackerState) :
    (get_total_spent_by_category st none none).map Prod.fst
      = ["Food", "Transportation", "Entertainment", "Shopping", "Bills", "Education",
         "Healthcare", "Other"]
    ∧ ((get_total_spent_by_category st none none).map Prod.snd).sum
        = get_total_spent st none none none := by
  obtain ⟨hk, hs⟩ := fold_totals st.expenses startTotals rfl
  constructor
  · simp only [get_total_spent_by_category]
    rw [hk]
    decide
  · simp only [get_total_spent_by_category]
    rw [hs]
    have h0 : (startTotals.map Prod.snd).sum = 0 := by
      norm_num [startTotals, ExpenseCategory.all]
    rw [h0]
    simp only [get_total_spent]
    ring

/-! Lemmas for the serialization round-trip claim. -/

theorem ofValue_value (c : ExpenseCategory) : ExpenseCategory.ofValue c.value = some c := by
  cases c <;> rfl

theorem expense_roundtrip (e : Expense) :
    Expense.from_dict (Expense.to_dict e) = some e := by
  simp only [Expense.from_dict, Expense.to_dict, ofValue_value]

theorem budget_roundtrip (b : Budget) (hid : b.id = budgetId b.category b.period) :
    Budget.from_dict (Budget.to_dict b) = some b := by
  obtain ⟨bid, bc, ba, bp⟩ := b
  simp only [Budget.from_dict, Budget.to_dict, ofValue_value] at hid ⊢
  rw [← hid]

theorem mapM_expense_roundtrip (l : List Expense) :
    (l.map Expense.to_dict).mapM Expense.from_dict = some l := by
  induction l with
  | nil => rfl
  | cons e es ih =>
    rw [List.map_cons, List.mapM_cons, expense_roundtrip, ih]
    rfl

theorem mapM_budget_roundtrip (l : List (String × Budget))
    (h : ∀ p ∈ l, p.1 = p.2.id ∧ p.2.id = budgetId p.2.category p.2.period) :
    ((l.map Prod.snd).map Budget.to_dict).mapM
        (fun d => Option.map (fun b => (d.id, b)) (Budget.from_dict d)) = some l := by
  induction l with
  | nil => rfl
  | cons p ps ih =>
    obtain ⟨h1, h2⟩ := h p (List.mem_cons_self p ps)
    have hr := budget_roundtrip p.2 h2
    have hih := ih (fun q hq => h q (List.mem_cons_of_mem p hq))
    rw [List.map_cons, List.map_cons, List.mapM_cons]
    have hkey : (Budget.to_dict p.2).id = p.1 := by
      rw [Budget.to_dict]
      exact h1.symm
    rw [hr, hkey, hih]
    rfl

/-- C6: saving a tracker state and reloading it yields the same expense
records and the same budget entries, given the stored-budget-key invariant
maintained by set_budget (every dict key equals its budget id, which is
derived from the category and the period). -/
theorem C6_save_load_roundtrip (st : TrackerState)
    (hb : ∀ p ∈ st.budgets, p.1 = p.2.id ∧ p.2.id = budgetId p.2.category p.2.period) :
    load_data (save_data st) = some st := by
  simp only [load_data, save_data]
  rw [mapM_expense_roundtrip, mapM_budget_roundtrip st.budgets hb]

/-- Witness for C6 at a concrete one-expense, one-budget state. -/
theorem C6_save_load_roundtrip_witness :
    (∀ p ∈ sampleState.budgets,
      p.1 = p.2.id ∧ p.2.id = budgetId p.2.category p.2.period)
    ∧ load_data (save_data sampleState) = some sampleState :=
  ⟨by decide, C6_save_load_roundtrip sampleState (by decide)⟩

/-! Lemmas for the add/get/delete claim. -/

theorem find?_append_fresh (l : List Expense) (e : Expense) (tid : String)
    (hid : e.id = tid)
    (h : tid ∉ l.map (fun x => x.id)) :
    (l ++ [e]).find? (fun x => x.id == tid) = some e := by
  induction l with
  | nil => simp [List.find?, hid]
  | cons x xs ih =>
    have hx : x.id ≠ tid := by
      intro hc
      exact h (List.mem_map.mpr ⟨x, List.mem_cons_self x xs, hc⟩)
    have hih := ih (fun hc => h (by
      obtain ⟨y, hy1, hy2⟩ := List.mem_map.mp hc
      exact List.mem_map.mpr ⟨y, List.mem_cons_of_mem x hy1, hy2⟩))
    rw [List.cons_append, List.find?_cons]
    have hbeq : (x.id == tid) = false := by
      simpa using hx
    rw [hbeq]
    exact hih

theorem find?_filter_ne (l : List Expense) (eid : String) :
    (l.filter (fun x => !(x.id == eid))).find? (fun x => x.id == eid) = none := by
  rw [List.find?_eq_none]
  intro x hx
  have hmem := (List.mem_filter.mp hx).2
  simp only [Bool.not_eq_eq_eq_not, Bool.not_true] at hmem
  simp [hmem]

/-- C7: for a valid input (positive amount) and a fresh generated id,
add_expense succeeds and get_expense of the new id returns exactly the added
record; and for every id present in the ledger, delete_expense followed by
get_expense of that id returns none. -/
theorem C7_add_get_delete (st : TrackerState) (a : Rat) (c : ExpenseCategory)
    (ds : String) (d : Date) (tok : String)
    (hpos : 0 < a)
    (hfresh : mkExpenseId d tok ∉ st.expenses.map (fun x => x.id)) :
    ((add_expense st a c ds d tok).1.1 = true
      ∧ get_expense (add_expense st a c ds d tok).2 (mkExpenseId d tok)
          = some { id := mkExpenseId d tok
                   amount := a
                   category := c
                   description := ds
                   date := d })
    ∧ (∀ eid, eid ∈ st.expenses.map (fun x => x.id) →
        get_expense (delete_expense st eid).2 eid = none) := by
  have hnle : ¬(a ≤ 0) := not_le.mpr hpos
  constructor
  · constructor
    · simp only [add_expense, if_neg hnle]
    · simp only [add_expense, if_neg hnle, get_expense]
      exact find?_append_fresh st.expenses _ _ rfl hfresh
  · intro eid hmem
    have hstate : (delete_expense st eid).2.expenses
        = st.expenses.filter (fun x => !(x.id == eid)) := by
      simp only [delete_expense]
      split_ifs <;> rfl
    simp only [get_expense, hstate]
    exact find?_filter_ne st.expenses eid

/-- Witness for C7 at a concrete state: add a fresh expense, then delete the
stored one. -/
theorem C7_add_get_delete_witness :
    (0 < (7 : Rat))
    ∧ mkExpenseId ⟨2024, 2, 2⟩ "tk2" ∉ sampleState.expenses.map (fun x => x.id)
    ∧ ((add_expense sampleState 7 .bills "lunch" ⟨2024, 2, 2⟩ "tk2").1.1 = true
      ∧ get_expense (add_expense sampleState 7 .bills "lunch" ⟨2024, 2, 2⟩ "tk2").2
          (mkExpenseId ⟨2024, 2, 2⟩ "tk2")
          = some { id := mkExpenseId ⟨2024, 2, 2⟩ "tk2"
                   amount := 7
                   category := .bills
                   description := "lunch"
                   date := ⟨2024, 2, 2⟩ })
    ∧ get_expense (delete_expense sampleState "2024-01-15_tok").2 "2024-01-15_tok"
        = none :=
  ⟨by decide, by decide,
    (C7_add_get_delete sampleState 7 .bills "lunch" ⟨2024, 2, 2⟩ "tk2"
      (by decide) (by decide)).1,
    (C7_add_get_delete sampleState 7 .bills "lunch" ⟨2024, 2, 2⟩ "tk2"
      (by decide) (by decide)).2 "2024-01-15_tok" (by decide)⟩

/-! Lemmas for the update claim. -/

theorem updateGo_not_found (eid : String) (a : Option Rat) (c : Option ExpenseCategory)
    (ds : Option String) (dt : Option Date) (l : List Expense)
    (h : eid ∉ l.map (fun x => x.id)) :
    updateGo eid a c ds dt l = ((false, "Expense not found"), l) := by
  induction l with
  | nil => rfl
  | cons x xs ih =>
    have hx : x.id ≠ eid := by
      intro hc
      exact h (List.mem_map.mpr ⟨x, List.mem_cons_self x xs, hc⟩)
    have hih := ih (fun hc => h (by
      obtain ⟨y, hy1, hy2⟩ := List.mem_map.mp hc
      exact List.mem_map.mpr ⟨y, List.mem_cons_of_mem x hy1, hy2⟩))
    simp only [updateGo, if_neg hx, hih]

theorem updateGo_bad_amount (eid : String) (a : Option Rat) (c : Option ExpenseCategory)
    (ds : Option String) (dt : Option Date) (l : List Expense)
    (hbad : badAmount a = true) (h : eid ∈ l.map (fun x => x.id)) :
    updateGo eid a c ds dt l = ((false, "Amount must be positive"), l) := by
  induction l with
  | nil => simp at h
  | cons x xs ih =>
    by_cases hx : x.id = eid
    · simp only [updateGo, if_pos hx, if_pos hbad]
    · have hmem : eid ∈ xs.map (fun x => x.id) := by
        obtain ⟨y, hy1, hy2⟩ := List.mem_map.mp h
        rcases List.mem_cons.mp hy1 with hy | hy
        · exact absurd (hy ▸ hy2) hx
        · exact List.mem_map.mpr ⟨y, hy, hy2⟩
      simp only [updateGo, if_neg hx, ih hmem]

theorem updateGo_found (eid : String) (a : Option Rat) (c : Option ExpenseCategory)
    (ds : Option String) (dt : Option Date) (pre : List Expense) (e : Expense)
    (suf : List Expense)
    (hpre : eid ∉ pre.map (fun x => x.id)) (he : e.id = eid)
    (hgood : badAmount a = false) :
    updateGo eid a c ds dt (pre ++ e :: suf)
      = ((true, "Expense updated successfully"), pre ++ applyPatch e a c ds dt :: suf) := by
  induction pre with
  | nil =>
    simp only [List.nil_append, updateGo, if_pos he]
    rw [if_neg (by rw [hgood]; exact Bool.false_ne_true)]
  | cons x xs ih =>
    have hx : x.id ≠ eid := by
      intro hc
      exact hpre (List.mem_map.mpr ⟨x, List.mem_cons_self x xs, hc⟩)
    have hih := ih (fun hc => hpre (by
      obtain ⟨y, hy1, hy2⟩ := List.mem_map.mp hc
      exact List.mem_map.mpr ⟨y, List.mem_cons_of_mem x hy1, hy2⟩))
    simp only [List.cons_append, updateGo, if_neg hx, List.append_eq, hih]

/-- C8: update_expense fails with not-found when the id is absent and with
the invalid-amount message when a supplied amount is non-positive, mutating
nothing in either case; on success every field with no supplied override
keeps its previous value, the id is unchanged, and only the first matching
record is rewritten. -/
theorem C8_update_expense (st : TrackerState) (eid : String) (a : Option Rat)
    (c : Option ExpenseCategory) (ds : Option String) (dt : Option Date) :
    (eid ∉ st.expenses.map (fun x => x.id) →
      (update_expense st eid a c ds dt).1 = (false, "Expense not found")
      ∧ (update_expense st eid a c ds dt).2 = st)
    ∧ (∀ av, a = some av → av ≤ 0 → eid ∈ st.expenses.map (fun x => x.id) →
      (update_expense st eid a c ds dt).1 = (false, "Amount must be positive")
      ∧ (update_expense st eid a c ds dt).2 = st)
    ∧ (∀ pre e suf, st.expenses = pre ++ e :: suf →
        eid ∉ pre.map (fun x => x.id) → e.id = eid → badAmount a = false →
      (update_expense st eid a c ds dt).1 = (true, "Expense updated successfully")
      ∧ (update_expense st eid a c ds dt).2.expenses
          = pre ++ applyPatch e a c ds dt :: suf
      ∧ (applyPatch e a c ds dt).id = e.id
      ∧ (a = none → (applyPatch e a c ds dt).amount = e.amount)
      ∧ (c = none → (applyPatch e a c ds dt).category = e.category)
      ∧ (ds = none → (applyPatch e a c ds dt).description = e.description)
      ∧ (dt = none → (applyPatch e a c ds dt).date = e.date)) := by
  refine ⟨?_, ?_, ?_⟩
  · intro h
    have hg := updateGo_not_found eid a c ds dt st.expenses h
    constructor
    · simp only [update_expense, hg]
    · simp only [update_expense, hg]
  · intro av ha hav hmem
    have hbad : badAmount a = true := by
      rw [ha]
      simpa [badAmount] using hav
    have hg := updateGo_bad_amount eid a c ds dt st.expenses hbad hmem
    constructor
    · simp only [update_expense, hg]
    · simp only [update_expense, hg]
  · intro pre e suf hsplit hpre he hgood
    have hg := updateGo_found eid a c ds dt pre e suf hpre he hgood
    refine ⟨?_, ?_, rfl, ?_, ?_, ?_, ?_⟩
    · simp only [update_expense, hsplit, hg]
    · simp only [update_expense, hsplit, hg]
    · intro h
      rw [h]
      rfl
    · intro h
      rw [h]
      rfl
    · intro h
      rw [h]
      rfl
    · intro h
      rw [h]
      rfl

/-- Witness for C8: all three branches at concrete inputs, over the sample
one-expense state. -/
theorem C8_update_expense_witness :
    ("zzz" ∉ sampleState.expenses.map (fun x => x.id)
      ∧ (update_expense sampleState "zzz" none none none none).2 = sampleState)
    ∧ ((update_expense sampleState "2024-01-15_tok" (some (-2)) none none none).1
        = (false, "Amount must be positive")
      ∧ (update_expense sampleState "2024-01-15_tok" (some (-2)) none none none).2
        = sampleState)
    ∧ ((update_expense sampleState "2024-01-15_tok" (some 60) none none none).1
        = (true, "Expense updated successfully")
      ∧ (applyPatch sampleExpense (some 60) none none none).category
          = sampleExpense.category) :=
  ⟨⟨by decide,
    ((C8_update_expense sampleState "zzz" none none none none).1 (by decide)).2⟩,
    ⟨((C8_update_expense sampleState "2024-01-15_tok" (some (-2)) none none none).2.1
        (-2) rfl (by norm_num) (by decide)).1,
      ((C8_update_expense sampleState "2024-01-15_tok" (some (-2)) none none none).2.1
        (-2) rfl (by norm_num) (by decide)).2⟩,
    ⟨((C8_update_expense sampleState "2024-01-15_tok" (some 60) none none none).2.2
        [] sampleExpense [] rfl (by decide) (by decide) (by decide)).1,
      ((C8_update_expense sampleState "2024-01-15_tok" (some 60) none none none).2.2
        [] sampleExpense [] rfl (by decide) (by decide) (by decide)).2.2.2.2.1 rfl⟩⟩

/-! Lemmas for the set_budget claim. -/

theorem lookup_assocSet_self (l : List (String × Budget)) (k : String) (v : Budget) :
    lookupBudget (assocSet l k v) k = some v := by
  induction l with
  | nil => simp [assocSet, lookupBudget]
  | cons p ps ih =>
    obtain ⟨k1, v1⟩ := p
    by_cases hp : k1 = k
    · simp [assocSet, hp, lookupBudget]
    · simp only [assocSet, if_neg hp, lookupBudget]
      exact ih

theorem lookup_assocSet_other (l : List (String × Budget)) (k : String) (v : Budget)
    (k2 : String) (h : k2 ≠ k) :
    lookupBudget (assocSet l k v) k2 = lookupBudget l k2 := by
  induction l with
  | nil =>
    simp only [assocSet, lookupBudget]
    rw [if_neg (fun hc => h hc.symm)]
  | cons p ps ih =>
    obtain ⟨k1, v1⟩ := p
    by_cases hp : k1 = k
    · simp only [assocSet, if_pos hp, lookupBudget]
      rw [if_neg (fun hc => h hc.symm), if_neg (fun hc => h (hp ▸ hc).symm)]
    · simp only [assocSet, if_neg hp, lookupBudget]
      by_cases h12 : k1 = k2
      · rw [if_pos h12, if_pos h12]
      · rw [if_neg h12, if_neg h12]
        exact ih

/-- C9 counterexample: set_budget accepts the period string "yearly", which
lies outside the daily/weekly/monthly set, reports success and stores a
budget under that period, so the operation is neither rejected nor
mutation-free. -/
theorem C9_set_budget_counterexample :
    (set_budget { expenses := [], budgets := [] } .food 10 "yearly").1.1 = true
    ∧ (set_budget { expenses := [], budgets := [] } .food 10 "yearly").2.budgets
        ≠ ({ expenses := [], budgets := [] } : TrackerState).budgets := by
  decide

/-- C9 (amended): set_budget performs no period validation: with any period
string and a nonnegative amount it succeeds, storing the budget under the
(category, period) key and overwriting any existing entry there while
leaving every other key unchanged; with a negative amount it fails and
leaves the state unmutated. -/
theorem C9_set_budget_behavior (st : TrackerState) (c : ExpenseCategory) (a : Rat)
    (p : String) :
    (a < 0 → set_budget st c a p = ((false, "Budget amount cannot be negative"), st))
    ∧ (0 ≤ a →
        (set_budget st c a p).1.1 = true
        ∧ (set_budget st c a p).2.expenses = st.expenses
        ∧ lookupBudget (set_budget st c a p).2.budgets (budgetId c p)
            = some { id := budgetId c p
                     category := c
                     amount := a
                     period := p }
        ∧ (∀ k, k ≠ budgetId c p →
            lookupBudget (set_budget st c a p).2.budgets k
              = lookupBudget st.budgets k)) := by
  constructor
  · intro h
    simp only [set_budget, if_pos h]
  · intro h
    have hn : ¬(a < 0) := not_lt.mpr h
    refine ⟨?_, ?_, ?_, ?_⟩
    · simp only [set_budget, if_neg hn]
    · simp only [set_budget, if_neg hn]
    · simp only [set_budget, if_neg hn]
      exact lookup_assocSet_self st.budgets (budgetId c p) _
    · intro k hk
      simp only [set_budget, if_neg hn]
      exact lookup_assocSet_other st.budgets (budgetId c p) _ k hk

/-- Witness for C9 (amended): both branches at concrete inputs. -/
theorem C9_set_budget_behavior_witness :
    ((-1 : Rat) < 0
      ∧ set_budget sampleState .food (-1) "weekly"
          = ((false, "Budget amount cannot be negative"), sampleState))
    ∧ ((0 : Rat) ≤ 25
      ∧ lookupBudget (set_budget sampleState .food 25 "yearly").2.budgets
            (budgetId .food "yearly")
          = some { id := budgetId .food "yearly"
                   category := .food
                   amount := 25
                   period := "yearly" }) :=
  ⟨⟨by norm_num,
    (C9_set_budget_behavior sampleState .food (-1) "weekly").1 (by norm_num)⟩,
    ⟨by norm_num,
      ((C9_set_budget_behavior sampleState .food 25 "yearly").2 (by norm_num)).2.2.1⟩⟩

/-- C10: listing with a sort key outside date/amount/category returns the
expenses in stored order without error, and every listing call leaves the
tracker state unchanged, because it sorts a copy. -/
theorem C10_get_all_expenses (st : TrackerState) (key : String) (rev : Bool) :
    ((key ≠ "date" ∧ key ≠ "amount" ∧ key ≠ "category") →
      (get_all_expenses st key rev).1 = st.expenses)
    ∧ (get_all_expenses st key rev).2 = st := by
  constructor
  · rintro ⟨h1, h2, h3⟩
    simp only [get_all_expenses]
    rw [if_neg h1, if_neg h2, if_neg h3]
  · rfl

/-- Witness for C10 at the unknown sort key "id". -/
theorem C10_get_all_expenses_witness :
    (("id" : String) ≠ "date" ∧ ("id" : String) ≠ "amount"
      ∧ ("id" : String) ≠ "category")
    ∧ (get_all_expenses sampleState "id" true).1 = sampleState.expenses
    ∧ (get_all_expenses sampleState "id" true).2 = sampleState :=
  ⟨by decide,
    (C10_get_all_expenses sampleState "id" true).1 (by decide),
    (C10_get_all_expenses sampleState "id" true).2⟩

end ExpenseTrackerModel
